import Mathlib

/-!
Verification of the HireLink client-side core: the candidate store
(`src/lib/store.ts`), the validation engine (`src/lib/validation.ts`),
the wizard steps and submission (`ResumeStep`, `ExperienceStep`), and the
pipeline projection (`src/components/PipelineBoard.tsx`).

The TypeScript modules are shallowly embedded here: strings are Lean
strings viewed as sequences of code points (every string the program
handles lives in the basic multilingual plane, where the JavaScript
UTF-16 `length` equals the number of code points), `Partial<T>` record
updates become structures of `Option` fields, and the two impure inputs
of `generateApplicationId` (`Math.random()` and `Date.now()`) become
explicit parameters.
-/

-- ============================================================================
-- Data model (src/lib/store.ts, type definitions)
-- ============================================================================

structure PersonalInfo where
  fullName : String
  email : String
  phone : String
deriving DecidableEq, Repr

structure Experience where
  yearsOfExperience : String
  skills : List String
  portfolioLink : String
deriving DecidableEq, Repr

/-- A browser `File` handle as the core inspects it: only `name`, `size`
(bytes) and `type` (mime type) are ever read. -/
structure ResumeFile where
  name : String
  size : Nat
  type : String
deriving DecidableEq, Repr

structure ApplicationForm where
  personalInfo : PersonalInfo
  experience : Experience
  resumeFile : Option ResumeFile
  resumeFileName : String
deriving DecidableEq, Repr

structure JobPosting where
  id : String
  title : String
  location : String
  description : String
  department : String
  experience : String
deriving DecidableEq, Repr

/-- The four values of the `stage` union type of `Candidate`. -/
inductive Stage where
  | Applied
  | Reviewed
  | InterviewScheduled
  | OfferSent
deriving DecidableEq, Repr

/-- The literal string carried by each `stage` value in the TypeScript
union `'Applied' | 'Reviewed' | 'Interview Scheduled' | 'Offer Sent'`. -/
def Stage.label : Stage → String
  | .Applied => "Applied"
  | .Reviewed => "Reviewed"
  | .InterviewScheduled => "Interview Scheduled"
  | .OfferSent => "Offer Sent"

/-- Position of a stage on the forward path
Applied → Reviewed → Interview Scheduled → Offer Sent. -/
def Stage.idx : Stage → Nat
  | .Applied => 0
  | .Reviewed => 1
  | .InterviewScheduled => 2
  | .OfferSent => 3

structure Candidate where
  id : String
  applicationId : String
  jobId : String
  jobTitle : String
  applicationData : ApplicationForm
  appliedDate : String
  stage : Stage
  score : Option Nat
  notes : Option String
  interviewDate : Option String
  interviewTime : Option String
  offerDetails : Option String
deriving DecidableEq, Repr

inductive UserRole where
  | candidate
  | recruiter
deriving DecidableEq, Repr

/-- The state slice of `HireLinkStore` (the function members act on this
state and are modelled as the functions below). -/
structure StoreState where
  currentStep : Nat
  applicationForm : ApplicationForm
  jobPostings : List JobPosting
  selectedJobId : Option String
  candidates : List Candidate
  userRole : UserRole
deriving DecidableEq, Repr

-- ============================================================================
-- Initial state (src/lib/store.ts, INITIAL STATE section)
-- ============================================================================

def initialApplicationForm : ApplicationForm :=
  { personalInfo := { fullName := "", email := "", phone := "" }
    experience := { yearsOfExperience := "", skills := [], portfolioLink := "" }
    resumeFile := none
    resumeFileName := "" }

def mockJobPostings : List JobPosting :=
  [ { id := "1", title := "Senior Frontend Developer",
      location := "San Francisco, CA",
      description := "Build scalable web applications with React and Next.js. Join our team of passionate engineers.",
      department := "Engineering", experience := "5+ years" },
    { id := "2", title := "Full Stack Engineer",
      location := "New York, NY",
      description := "Work on end-to-end features using modern web technologies. Shape the future of our platform.",
      department := "Engineering", experience := "3+ years" },
    { id := "3", title := "Product Manager",
      location := "Remote",
      description := "Lead product vision and strategy for our core offerings. Drive impact across all departments.",
      department := "Product", experience := "4+ years" },
    { id := "4", title := "UX/UI Designer",
      location := "Austin, TX",
      description := "Design beautiful and intuitive user experiences for millions of users.",
      department := "Design", experience := "2+ years" } ]

def initialStoreState : StoreState :=
  { currentStep := 0
    applicationForm := initialApplicationForm
    jobPostings := mockJobPostings
    selectedJobId := none
    candidates := []
    userRole := UserRole.candidate }

-- ============================================================================
-- Store operations (src/lib/store.ts, lines 146-190)
-- ============================================================================

/-- `setApplicationForm` spreads a partial form over the current one; the
partial form is a structure of optional fields. -/
structure ApplicationFormUpdate where
  personalInfo : Option PersonalInfo := none
  experience : Option Experience := none
  resumeFile : Option (Option ResumeFile) := none
  resumeFileName : Option String := none
deriving DecidableEq, Repr

def setApplicationForm (form : ApplicationFormUpdate) (s : StoreState) : StoreState :=
  { s with applicationForm :=
      { personalInfo := form.personalInfo.getD s.applicationForm.personalInfo
        experience := form.experience.getD s.applicationForm.experience
        resumeFile := form.resumeFile.getD s.applicationForm.resumeFile
        resumeFileName := form.resumeFileName.getD s.applicationForm.resumeFileName } }

def setCurrentStep (step : Nat) (s : StoreState) : StoreState :=
  { s with currentStep := step }

def resetApplicationForm (s : StoreState) : StoreState :=
  { s with currentStep := 0, applicationForm := initialApplicationForm }

def setSelectedJobId (jobId : String) (s : StoreState) : StoreState :=
  { s with selectedJobId := some jobId }

/-- `addCandidate` prepends the new record; the source performs no check
of any kind before doing so. -/
def addCandidate (c : Candidate) (s : StoreState) : StoreState :=
  { s with candidates := c :: s.candidates }

/-- `Partial<Candidate>`: a key can be absent (`none`), or present with a
value; for the optional fields of `Candidate` a present key can itself
carry `undefined` (`some none`), which the spread then writes over the
old value. -/
structure CandidateUpdate where
  id : Option String := none
  applicationId : Option String := none
  jobId : Option String := none
  jobTitle : Option String := none
  applicationData : Option ApplicationForm := none
  appliedDate : Option String := none
  stage : Option Stage := none
  score : Option (Option Nat) := none
  notes : Option (Option String) := none
  interviewDate : Option (Option String) := none
  interviewTime : Option (Option String) := none
  offerDetails : Option (Option String) := none
deriving DecidableEq, Repr

/-- The spread `{ ...candidate, ...updates }`: every key present in the
update overwrites the corresponding field. -/
def mergeCandidate (c : Candidate) (u : CandidateUpdate) : Candidate :=
  { id := u.id.getD c.id
    applicationId := u.applicationId.getD c.applicationId
    jobId := u.jobId.getD c.jobId
    jobTitle := u.jobTitle.getD c.jobTitle
    applicationData := u.applicationData.getD c.applicationData
    appliedDate := u.appliedDate.getD c.appliedDate
    stage := u.stage.getD c.stage
    score := u.score.getD c.score
    notes := u.notes.getD c.notes
    interviewDate := u.interviewDate.getD c.interviewDate
    interviewTime := u.interviewTime.getD c.interviewTime
    offerDetails := u.offerDetails.getD c.offerDetails }

/-- `updateCandidate` maps over the collection, replacing every record
whose `id` matches by the merged record and keeping the rest; it has no
failure result. -/
def updateCandidate (i : String) (u : CandidateUpdate) (s : StoreState) : StoreState :=
  { s with candidates :=
      s.candidates.map fun c => if c.id = i then mergeCandidate c u else c }

/-- `getCandidateById` is `candidates.find(...)`: the first record (in
newest-first order) whose `id` matches, if any. -/
def getCandidateById (i : String) (s : StoreState) : Option Candidate :=
  s.candidates.find? fun c => c.id = i

-- ============================================================================
-- Spec-side store operations, for comparison with the code.
-- These two definitions follow the words of the specification (§4.4),
-- NOT the source; they exist only to exhibit where the code diverges.
-- ============================================================================

inductive StoreError where
  | DUPLICATE_ID
  | NOT_FOUND
deriving DecidableEq, Repr

/-- Claimed `insert` (spec §4.4): fails DUPLICATE_ID if the id is already
present, otherwise prepends. Written from the claim, not from the code. -/
def insertClaim (c : Candidate) (s : StoreState) : Except StoreError StoreState :=
  if s.candidates.any (fun d => d.id = c.id) then
    Except.error StoreError.DUPLICATE_ID
  else
    Except.ok { s with candidates := c :: s.candidates }

/-- Claimed `update` (spec §4.4): fails NOT_FOUND if no record has the
id, otherwise merges. Written from the claim, not from the code. -/
def updateClaim (i : String) (u : CandidateUpdate) (s : StoreState) : Except StoreError StoreState :=
  if s.candidates.any (fun d => d.id = i) then
    let merged := s.candidates.map (fun c => if c.id = i then mergeCandidate c u else c)
    Except.ok { s with candidates := merged }
  else
    Except.error StoreError.NOT_FOUND

-- ============================================================================
-- JavaScript string primitives used by src/lib/validation.ts
-- ============================================================================

/-- The character class `\s` of JavaScript regular expressions and the
characters stripped by `String.prototype.trim`: tab, line feed, vertical
tab, form feed, carriage return, space, no-break space, ogham space
mark, the en-quad..hair-space block, line separator, paragraph
separator, narrow no-break space, medium mathematical space, ideographic
space and the byte-order mark. -/
def isJsWhitespace (c : Char) : Bool :=
  c.toNat = 32 || c.toNat = 9 || c.toNat = 10 || c.toNat = 11 || c.toNat = 12 ||
  c.toNat = 13 || c.toNat = 160 || c.toNat = 5760 ||
  (8192 ≤ c.toNat && c.toNat ≤ 8202) || c.toNat = 8232 || c.toNat = 8233 ||
  c.toNat = 8239 || c.toNat = 8287 || c.toNat = 12288 || c.toNat = 65279

def isAsciiLetter (c : Char) : Bool :=
  (65 ≤ c.toNat && c.toNat ≤ 90) || (97 ≤ c.toNat && c.toNat ≤ 122)

def isAsciiDigit (c : Char) : Bool :=
  48 ≤ c.toNat && c.toNat ≤ 57

/-- `String.prototype.trim`: strip leading and trailing whitespace. -/
def jsTrim (s : String) : String :=
  String.mk (((s.toList.dropWhile isJsWhitespace).reverse.dropWhile isJsWhitespace).reverse)

/-- `String.prototype.length` (code points; all program inputs are in the
basic multilingual plane, where this equals the UTF-16 length). -/
def jsLength (s : String) : Nat :=
  s.toList.length

/-- `String.prototype.substring(a, b)` for `a ≤ b`: the characters at
indices `a` up to but excluding `b`. -/
def jsSubstring (s : String) (a b : Nat) : String :=
  String.mk ((s.toList.drop a).take (b - a))

/-- `String.prototype.substr(start, len)`: at most `len` characters
starting at index `start`. -/
def jsSubstr (s : String) (start len : Nat) : String :=
  String.mk ((s.toList.drop start).take len)

/-- `String.prototype.toUpperCase` restricted to ASCII (the only letters
the program ever produces in ids are base-36 digits `0-9a-z`). -/
def jsToUpper (s : String) : String :=
  String.mk (s.toList.map fun c =>
    if 97 ≤ c.toNat ∧ c.toNat ≤ 122 then Char.ofNat (c.toNat - 32) else c)

-- ============================================================================
-- Validation engine (src/lib/validation.ts)
-- ============================================================================

structure ValidationResult where
  valid : Bool
  error : Option String
deriving DecidableEq, Repr

def validOk : ValidationResult :=
  { valid := true, error := none }

def invalidWith (msg : String) : ValidationResult :=
  { valid := false, error := some msg }

def emptyString : String := ""

def msgFullNameRequired : String := "Full name is required"
def msgFullNameMin : String := "Full name must be at least 2 characters"
def msgFullNameMax : String := "Full name must not exceed 100 characters"
def msgFullNameFormat : String := "Full name can only contain letters, spaces, hyphens, and apostrophes"
def msgEmailRequired : String := "Email is required"
def msgEmailInvalid : String := "Please enter a valid email address"
def msgPhoneRequired : String := "Phone number is required"
def msgPhoneChars : String := "Phone number contains invalid characters"
def msgPhoneDigits : String := "Phone number must contain at least 10 digits"
def msgYearsRequired : String := "Years of experience is required"
def msgYearsNumber : String := "Years of experience must be a valid number"
def msgYearsRange : String := "Years of experience must be between 0 and 80"
def msgSkillsEmpty : String := "Please add at least one skill"
def msgSkillsMax : String := "Maximum 20 skills allowed"
def msgSkillsItemLong : String := "Each skill must not exceed 50 characters"
def msgPortfolioInvalid : String := "Please enter a valid portfolio URL"
def msgResumeRequired : String := "Resume is required"
def msgResumeType : String := "Resume must be PDF, DOC, or DOCX format"
def msgResumeSize : String := "Resume must not exceed 5MB"

/-- The character class `[a-zA-Z\s'-]` of `VALIDATION_RULES.fullName.pattern`
(45 is the hyphen, 39 the apostrophe). -/
def fullNameAllowedChar (c : Char) : Bool :=
  isAsciiLetter c || isJsWhitespace c || c.toNat = 45 || c.toNat = 39

/-- `/^[a-zA-Z\s'-]+$/.test(name)`: nonempty and every character in the
class. -/
def fullNamePatternTest (s : String) : Bool :=
  !s.toList.isEmpty && s.toList.all fullNameAllowedChar

/-- `validateFullName` from src/lib/validation.ts lines 50-68. Note the
length checks run on the raw string while only the emptiness check runs
on the trimmed string. -/
def validateFullName (name : String) : ValidationResult :=
  if jsTrim name = "" then invalidWith msgFullNameRequired
  else if jsLength name < 2 then invalidWith msgFullNameMin
  else if 100 < jsLength name then invalidWith msgFullNameMax
  else if !fullNamePatternTest name then invalidWith msgFullNameFormat
  else validOk

/-- The class `[^\s@]`: neither whitespace nor the at sign (64). -/
def emailLocalChar (c : Char) : Bool :=
  !isJsWhitespace c && c.toNat != 64

/-- `/^[^\s@]+@[^\s@]+\.[^\s@]+$/.test(s)`. Since the class `[^\s@]`
excludes `@`, a match splits the string at its unique `@`: a nonempty
run before it, and after it a nonempty run containing a dot with at
least one character on each side; no whitespace anywhere. The search
over dot positions realizes the backtracking of the regex engine. -/
def emailPatternTest (s : String) : Bool :=
  let cs := s.toList
  let locPart := cs.takeWhile (fun c => c.toNat != 64)
  let domPart := (cs.dropWhile (fun c => c.toNat != 64)).drop 1
  !locPart.isEmpty && locPart.all emailLocalChar &&
  !domPart.isEmpty && domPart.all emailLocalChar &&
  (List.range domPart.length).any (fun i =>
    decide (domPart.getD i (Char.ofNat 32) = Char.ofNat 46 ∧ 1 ≤ i ∧ i + 1 < domPart.length))

/-- `validateEmail` from src/lib/validation.ts lines 75-85. -/
def validateEmail (email : String) : ValidationResult :=
  if jsTrim email = "" then invalidWith msgEmailRequired
  else if !emailPatternTest email then invalidWith msgEmailInvalid
  else validOk

/-- The class `[\d\s\-+()]` (43 `+`, 45 `-`, 40 `(`, 41 `)`). -/
def phoneAllowedChar (c : Char) : Bool :=
  isAsciiDigit c || isJsWhitespace c || c.toNat = 45 || c.toNat = 43 ||
  c.toNat = 40 || c.toNat = 41

/-- `/^[\d\s\-+()]+$/.test(s)`. -/
def phonePatternTest (s : String) : Bool :=
  !s.toList.isEmpty && s.toList.all phoneAllowedChar

/-- `validatePhone` from src/lib/validation.ts lines 93-108; the digit
projection is `phone.replace(/\D/g, '')`. -/
def validatePhone (phone : String) : ValidationResult :=
  if jsTrim phone = "" then invalidWith msgPhoneRequired
  else if !phonePatternTest phone then invalidWith msgPhoneChars
  else if (phone.toList.filter isAsciiDigit).length < 10 then invalidWith msgPhoneDigits
  else validOk

/-- `/^\d+(\.\d+)?$/.test(s)`: a nonempty digit run, optionally followed
by a dot (46) and another nonempty digit run. -/
def yearsPatternTest (s : String) : Bool :=
  let cs := s.toList
  let ip := cs.takeWhile isAsciiDigit
  let rest := cs.drop ip.length
  !ip.isEmpty &&
  (rest.isEmpty ||
    (decide (rest.headD (Char.ofNat 32) = Char.ofNat 46) &&
     !(rest.drop 1).isEmpty && (rest.drop 1).all isAsciiDigit))

def digitsToNat (ds : List Char) : Nat :=
  ds.foldl (fun acc c => acc * 10 + (c.toNat - 48)) 0

/-- For a string matching `/^\d+(\.\d+)?$/`, `parseFloat` yields the
non-negative value integer-part + 0.fraction, so `numYears < 0` never
holds and `numYears > 80` holds exactly when the integer part exceeds
80, or equals 80 while some fractional digit is nonzero. -/
def yearsGreaterThan80 (s : String) : Bool :=
  let cs := s.toList
  let ip := cs.takeWhile isAsciiDigit
  let fp := (cs.drop ip.length).drop 1
  decide (80 < digitsToNat ip) ||
  (decide (digitsToNat ip = 80) && fp.any (fun c => c.toNat != 48))

/-- `validateYearsOfExperience` from src/lib/validation.ts lines 115-130. -/
def validateYearsOfExperience (years : String) : ValidationResult :=
  if jsTrim years = "" then invalidWith msgYearsRequired
  else if !yearsPatternTest years then invalidWith msgYearsNumber
  else if yearsGreaterThan80 years then invalidWith msgYearsRange
  else validOk

/-- `validateSkills` from src/lib/validation.ts lines 138-154. -/
def validateSkills (skills : List String) : ValidationResult :=
  if skills.isEmpty then invalidWith msgSkillsEmpty
  else if 20 < skills.length then invalidWith msgSkillsMax
  else if skills.any (fun sk => 50 < jsLength sk) then invalidWith msgSkillsItemLong
  else validOk

def httpsSlashes : String := "https://"
def httpSlashes : String := "http://"

/-- The class `[\da-z\.-]` of the portfolio pattern group 2. -/
def portfolioMidChar (c : Char) : Bool :=
  isAsciiDigit c || (97 ≤ c.toNat && c.toNat ≤ 122) || c.toNat = 46 || c.toNat = 45

/-- The class `[a-z\.]` of the portfolio pattern group 3. -/
def portfolioTldChar (c : Char) : Bool :=
  (97 ≤ c.toNat && c.toNat ≤ 122) || c.toNat = 46

/-- The class `[\/\w \.-]` of the portfolio pattern group 4
(`\w` is letters, digits, underscore 95). -/
def portfolioTailChar (c : Char) : Bool :=
  c.toNat = 47 || isAsciiLetter c || isAsciiDigit c || c.toNat = 95 ||
  c.toNat = 32 || c.toNat = 46 || c.toNat = 45

/-- Match of `([\da-z\.-]+)\.([a-z\.]{2,6})([\/\w \.-]*)*\/?$` against a
whole string: some dot at index `i ≥ 1` splits it into a nonempty group-2
run, then exactly `t ∈ [2,6]` group-3 characters, then a (possibly empty)
tail of group-4 characters — `(X*)*` matches the same strings as `X*`,
and the optional final `/` is itself a group-4 character. The searches
over `i` and `t` realize the backtracking of the regex engine. -/
def portfolioTailMatch (cs : List Char) : Bool :=
  (List.range cs.length).any fun i =>
    (List.range 5).any fun tPred =>
      decide (cs.getD i (Char.ofNat 32) = Char.ofNat 46) &&
      decide (1 ≤ i) &&
      (cs.take i).all portfolioMidChar &&
      decide (i + 1 + (tPred + 2) ≤ cs.length) &&
      ((cs.drop (i + 1)).take (tPred + 2)).all portfolioTldChar &&
      (cs.drop (i + 1 + (tPred + 2))).all portfolioTailChar

/-- `/^(https?:\/\/)?([\da-z\.-]+)\.([a-z\.]{2,6})([\/\w \.-]*)*\/?$/.test(s)`.
No character class of the pattern contains a colon, so a string
containing one can only match by consuming a literal `https://` or
`http://` prefix through the optional group 1; a scheme prefix, when
present, can never be matched by the later groups for the same reason. -/
def portfolioPatternTest (s : String) : Bool :=
  let cs := s.toList
  if cs.take 8 = httpsSlashes.toList then portfolioTailMatch (cs.drop 8)
  else if cs.take 7 = httpSlashes.toList then portfolioTailMatch (cs.drop 7)
  else if cs.any (fun c => c.toNat = 58) then false
  else portfolioTailMatch cs

/-- `validatePortfolioLink` from src/lib/validation.ts lines 161-171;
blank input is valid because the field is optional. -/
def validatePortfolioLink (link : String) : ValidationResult :=
  if jsTrim link = "" then validOk
  else if !portfolioPatternTest link then invalidWith msgPortfolioInvalid
  else validOk

def mimePdf : String := "application/pdf"
def mimeDoc : String := "application/msword"
def mimeDocx : String := "application/vnd.openxmlformats-officedocument.wordprocessingml.document"

def acceptedFormats : List String :=
  [mimePdf, mimeDoc, mimeDocx]

/-- `validateResume` from src/lib/validation.ts lines 179-193; the size
ceiling is 5 * 1024 * 1024 bytes. -/
def validateResume : Option ResumeFile → ValidationResult
  | none => invalidWith msgResumeRequired
  | some f =>
    if !(acceptedFormats.contains f.type) then invalidWith msgResumeType
    else if 5242880 < f.size then invalidWith msgResumeSize
    else validOk

-- ============================================================================
-- Step validators (src/lib/validation.ts lines 202-264)
-- ============================================================================

/-- The `errors` record of a step validator: an insertion-ordered mapping
from field name to message. -/
structure StepResult where
  valid : Bool
  errors : List (String × String)
deriving DecidableEq, Repr

def fieldFullName : String := "fullName"
def fieldEmail : String := "email"
def fieldPhone : String := "phone"
def fieldYears : String := "yearsOfExperience"
def fieldSkills : String := "skills"
def fieldPortfolio : String := "portfolioLink"
def fieldResume : String := "resume"

/-- `if (!v.valid) errors.field = v.error || ''`. -/
def fieldError (field : String) (r : ValidationResult) : List (String × String) :=
  if r.valid then [] else [(field, r.error.getD emptyString)]

def validatePersonalInfoStep (fullName email phone : String) : StepResult :=
  let errors :=
    fieldError fieldFullName (validateFullName fullName) ++
    fieldError fieldEmail (validateEmail email) ++
    fieldError fieldPhone (validatePhone phone)
  { valid := errors.isEmpty, errors := errors }

def validateExperienceStep (yearsOfExperience : String) (skills : List String)
    (portfolioLink : String) : StepResult :=
  let errors :=
    fieldError fieldYears (validateYearsOfExperience yearsOfExperience) ++
    fieldError fieldSkills (validateSkills skills) ++
    fieldError fieldPortfolio (validatePortfolioLink portfolioLink)
  { valid := errors.isEmpty, errors := errors }

def validateResumeStep (file : Option ResumeFile) : StepResult :=
  let errors := fieldError fieldResume (validateResume file)
  { valid := errors.isEmpty, errors := errors }

-- ============================================================================
-- Application id generation (src/lib/validation.ts lines 270-274)
-- ============================================================================

/-- The base-36 digit characters `0-9a-z` produced by `Number.toString(36)`. -/
def base36DigitChar (n : Nat) : Char :=
  if n < 10 then Char.ofNat (48 + n) else Char.ofNat (87 + n)

/-- Positional base-36 rendering, most significant digit first, with
explicit fuel for structural recursion; fuel 64 covers every natural
number below 36^64, far beyond any millisecond timestamp. -/
def natToBase36Aux : Nat → Nat → List Char → List Char
  | 0, n, acc => base36DigitChar (n % 36) :: acc
  | fuel + 1, n, acc =>
    if n < 36 then base36DigitChar n :: acc
    else natToBase36Aux fuel (n / 36) (base36DigitChar (n % 36) :: acc)

/-- `Date.now().toString(36)` with the timestamp as a parameter. -/
def natToBase36 (n : Nat) : String :=
  String.mk (natToBase36Aux 64 n [])

/-- `Math.random().toString(36)` with the random draw represented by the
base-36 digit expansion of its fractional part (each entry < 36, no
trailing zeros, as the engine prints no trailing zero digits): `0` is
rendered as the single character `0`, any other draw as `0.` followed by
the digits. -/
def jsFracToString36 (ds : List Nat) : String :=
  if ds.isEmpty then String.mk [Char.ofNat 48]
  else String.mk (Char.ofNat 48 :: Char.ofNat 46 :: ds.map base36DigitChar)

def idPrefixHLA : String := "HLA"
def dashString : String := "-"

/-- `generateApplicationId` from src/lib/validation.ts lines 270-274:
`HLA-` + `Math.random().toString(36).substring(2, 10).toUpperCase()` +
`-` + `Date.now().toString(36).toUpperCase()`, with the two impure
sources as parameters. -/
def generateApplicationId (randFrac : List Nat) (nowMs : Nat) : String :=
  let timestamp := jsToUpper (natToBase36 nowMs)
  let random := jsToUpper (jsSubstring (jsFracToString36 randFrac) 2 10)
  idPrefixHLA ++ dashString ++ random ++ dashString ++ timestamp

/-- The record id of a submission, `Math.random().toString(36).substr(2, 9)`
(ResumeStep handleSubmit). -/
def generateCandidateId (randFrac : List Nat) : String :=
  jsSubstr (jsFracToString36 randFrac) 2 9

-- ============================================================================
-- Skill management (ExperienceStep, handleAddSkill / handleRemoveSkill)
-- ============================================================================

/-- The four rejection reasons of `handleAddSkill`, in check order. -/
inductive SkillError where
  | emptyInput
  | tooLong
  | alreadyAdded
  | maxReached
deriving DecidableEq, Repr

/-- The message written into `errors.skillInput` for each rejection. -/
def skillErrorMessage : SkillError → String
  | .emptyInput => "Please enter a skill"
  | .tooLong => "Skill must not exceed 50 characters"
  | .alreadyAdded => "This skill is already added"
  | .maxReached => "Maximum 20 skills allowed"

/-- `handleAddSkill` from the ExperienceStep component: trim the input,
reject (without touching the list) on empty input, length over 50, a
duplicate, or a full list of 20, and otherwise append the trimmed skill. -/
def handleAddSkill (skillInput : String) (skills : List String) :
    Except SkillError (List String) :=
  let trimmedSkill := jsTrim skillInput
  if trimmedSkill = "" then Except.error SkillError.emptyInput
  else if 50 < jsLength trimmedSkill then Except.error SkillError.tooLong
  else if trimmedSkill ∈ skills then Except.error SkillError.alreadyAdded
  else if 20 ≤ skills.length then Except.error SkillError.maxReached
  else Except.ok (skills ++ [trimmedSkill])

/-- `handleRemoveSkill`: `skills.filter(skill => skill !== skillToRemove)`. -/
def handleRemoveSkill (skillToRemove : String) (skills : List String) : List String :=
  skills.filter (fun sk => sk ≠ skillToRemove)

/-- The two skill-list mutations the wizard exposes. -/
inductive SkillOp where
  | add (text : String)
  | remove (text : String)

/-- Effect of one wizard skill operation on the list: a rejected add
leaves the list as it is. -/
def applySkillOp (skills : List String) : SkillOp → List String
  | .add t =>
    match handleAddSkill t skills with
    | .ok l => l
    | .error _ => skills
  | .remove t => handleRemoveSkill t skills

/-- Skill lists reachable through the wizard: every draft starts from the
empty list of `initialApplicationForm`. -/
def runSkillOps (ops : List SkillOp) : List String :=
  ops.foldl applySkillOp []

-- ============================================================================
-- Pipeline projection (src/components/PipelineBoard.tsx)
-- ============================================================================

/-- The `id`s of `PIPELINE_STAGES`, in board order. -/
def PIPELINE_STAGE_IDS : List String :=
  [Stage.Applied, Stage.Reviewed, Stage.InterviewScheduled, Stage.OfferSent].map Stage.label

/-- `getCandidatesByStage`: `candidates.filter(c => c.stage === stage)`. -/
def getCandidatesByStage (candidates : List Candidate) (stage : String) : List Candidate :=
  candidates.filter (fun c => c.stage.label = stage)

-- ============================================================================
-- Submission (ResumeStep handleSubmit)
-- ============================================================================

inductive SubmitError where
  | invalidResume (msg : String)
  | jobNotFound
deriving DecidableEq, Repr

/-- The candidate record literal built inside `handleSubmit`: `notes` is
present as the empty string, the other optional review fields are absent. -/
def mkSubmittedCandidate (appRnd : List Nat) (nowMs : Nat) (idRnd : List Nat)
    (nowIso : String) (st : StoreState) (selectedJob : JobPosting) : Candidate :=
  { id := generateCandidateId idRnd
    applicationId := generateApplicationId appRnd nowMs
    jobId := st.selectedJobId.getD emptyString
    jobTitle := selectedJob.title
    applicationData := st.applicationForm
    appliedDate := nowIso
    stage := Stage.Applied
    score := none
    notes := some emptyString
    interviewDate := none
    interviewTime := none
    offerDetails := none }

/-- `handleSubmit` from the ResumeStep component: re-validate the resume
(returning the failure without side effects), look up the selected job
(`jobPostings.find(j => j.id === selectedJobId)`, failing if absent),
build the candidate record and insert it with `addCandidate`. Nothing
else in the store is touched: in particular `resetApplicationForm` is
never called, so `currentStep` and `applicationForm` keep their values.
The impure sources (two `Math.random()` draws, `Date.now()`, the ISO
date string) are parameters. -/
def handleSubmit (appRnd : List Nat) (nowMs : Nat) (idRnd : List Nat)
    (nowIso : String) (st : StoreState) : Except SubmitError StoreState :=
  let validation := validateResume st.applicationForm.resumeFile
  if validation.valid = false then
    Except.error (SubmitError.invalidResume (validation.error.getD msgResumeRequired))
  else
    match st.jobPostings.find? (fun j => st.selectedJobId = some j.id) with
    | none => Except.error SubmitError.jobNotFound
    | some selectedJob =>
      Except.ok (addCandidate (mkSubmittedCandidate appRnd nowMs idRnd nowIso st selectedJob) st)

-- ============================================================================
-- Recruiter actions (CandidateModal, InterviewScheduler, OfferLetter)
-- ============================================================================

/-- `handleSave` of CandidateModal: `score` and `notes` keys are always
present (a falsy score writes `undefined`); the `newStage` local state is
never set by any code path (its setter is unused), so the conditional
spread `...(newStage &&: stage)` never contributes a `stage` key. -/
def saveUpdate (score : Option Nat) (notes : String) : CandidateUpdate :=
  { score := some score, notes := some (some notes) }

/-- `handleMoveToStage('Reviewed')`, reachable only through the button
rendered when the candidate's stage is `Applied`. -/
def moveToReviewedUpdate : CandidateUpdate :=
  { stage := some Stage.Reviewed }

/-- `handleScheduleInterview` of InterviewScheduler: stage, interview
date and time, and notes. -/
def interviewUpdate (date time notes : String) : CandidateUpdate :=
  { stage := some Stage.InterviewScheduled
    interviewDate := some (some date)
    interviewTime := some (some time)
    notes := some (some notes) }

/-- `handleSendOffer` of OfferLetter: stage and offer details. -/
def offerUpdate (details : String) : CandidateUpdate :=
  { stage := some Stage.OfferSent
    offerDetails := some (some details) }

/-- One store transition of the core. The recruiter constructors carry the
enabling conditions under which the UI exposes each action: the modal
shows the move-to-Reviewed button only for a candidate whose stage is
`Applied`, opens the interview scheduler only from stage `Reviewed`, and
opens the offer letter only from stage `Interview Scheduled`. A
submission always enters at stage `Applied`; its id is fresh, which
models the collision-resistant id source assumed by the data model
(`id (unique, generated)`). The `uiOp` constructor covers every
operation that leaves the candidate collection untouched (wizard field
edits, step changes, job selection, role switch, form reset). -/
inductive CoreStep : StoreState → StoreState → Prop
  | submit (s : StoreState) (c : Candidate)
      (hstage : c.stage = Stage.Applied)
      (hfresh : ∀ d ∈ s.candidates, d.id ≠ c.id) :
      CoreStep s (addCandidate c s)
  | saveReview (s : StoreState) (i : String) (score : Option Nat) (notes : String) :
      CoreStep s (updateCandidate i (saveUpdate score notes) s)
  | moveToReviewed (s : StoreState) (c : Candidate)
      (hc : c ∈ s.candidates) (hstage : c.stage = Stage.Applied) :
      CoreStep s (updateCandidate c.id moveToReviewedUpdate s)
  | scheduleInterview (s : StoreState) (c : Candidate) (date time notes : String)
      (hc : c ∈ s.candidates) (hstage : c.stage = Stage.Reviewed) :
      CoreStep s (updateCandidate c.id (interviewUpdate date time notes) s)
  | sendOffer (s : StoreState) (c : Candidate) (details : String)
      (hc : c ∈ s.candidates) (hstage : c.stage = Stage.InterviewScheduled) :
      CoreStep s (updateCandidate c.id (offerUpdate details) s)
  | uiOp (s : StoreState) (step : Nat) (form : ApplicationForm)
      (sel : Option String) (role : UserRole) :
      CoreStep s { s with currentStep := step, applicationForm := form,
                          selectedJobId := sel, userRole := role }

/-- The record-id uniqueness invariant of the data model. -/
def idsNodup (s : StoreState) : Prop :=
  (s.candidates.map Candidate.id).Nodup

/-- The stage of the record `getCandidateById` finds for an id. -/
def stageOfId (s : StoreState) (i : String) : Option Stage :=
  (getCandidateById i s).map Candidate.stage

-- ============================================================================
-- Definitions written from the claims (for comparison only)
-- ============================================================================

def claimSpaceChar : Char := Char.ofNat 32
def claimHyphenChar : Char := Char.ofNat 45
def claimApostropheChar : Char := Char.ofNat 39

/-- Claimed full-name rule (spec §8): valid iff the trimmed length is
between 2 and 100 and every character is a letter, a space, a hyphen or
an apostrophe. Written from the claim, not from the code. -/
def claimFullNameValid (s : String) : Bool :=
  decide (2 ≤ jsLength (jsTrim s)) && decide (jsLength (jsTrim s) ≤ 100) &&
  s.toList.all (fun c =>
    isAsciiLetter c || c = claimSpaceChar || c = claimHyphenChar || c = claimApostropheChar)

-- ============================================================================
-- Concrete states and records used to instantiate the theorems
-- ============================================================================

def idOne : String := "cand-1"
def idTwo : String := "cand-2"
def dupId : String := "dup"
def appIdA : String := "HLA-AAAAAAAA-1"
def appIdB : String := "HLA-BBBBBBBB-1"
def missingId : String := "missing"
def jobOneId : String := "1"
def isoDate : String := "2026-01-01T00:00:00.000Z"
def cvName : String := "cv.pdf"
def skillGo : String := "Go"
def skillX : String := "x"

def exampleResume : ResumeFile :=
  { name := cvName, size := 1000, type := mimePdf }

/-- A draft that passes all three step validators. -/
def exampleForm : ApplicationForm :=
  { personalInfo :=
      { fullName := "Ada Lovelace", email := "ada@example.com", phone := "0123456789" }
    experience := { yearsOfExperience := "5", skills := [skillGo], portfolioLink := "" }
    resumeFile := some exampleResume
    resumeFileName := cvName }

def exampleCandidate (i appId : String) (st : Stage) : Candidate :=
  { id := i
    applicationId := appId
    jobId := jobOneId
    jobTitle := "Senior Frontend Developer"
    applicationData := exampleForm
    appliedDate := isoDate
    stage := st
    score := none
    notes := some emptyString
    interviewDate := none
    interviewTime := none
    offerDetails := none }

def cexFirst : Candidate := exampleCandidate dupId appIdA Stage.Applied
def cexSecond : Candidate := exampleCandidate dupId appIdB Stage.Applied
def candOne : Candidate := exampleCandidate idOne appIdA Stage.Applied
def candTwo : Candidate := exampleCandidate idTwo appIdB Stage.Reviewed

def exampleStoreTwo : StoreState :=
  { initialStoreState with candidates := [candOne, candTwo] }

def c3Store : StoreState :=
  { initialStoreState with candidates := [candOne] }

/-- The wizard on step 2 with a fully valid draft for job "1". -/
def exampleWizardStore : StoreState :=
  { initialStoreState with
      currentStep := 2
      applicationForm := exampleForm
      selectedJobId := some jobOneId }

def exampleSubmitResult : Except SubmitError StoreState :=
  handleSubmit [1] 1700000000000 [2] isoDate exampleWizardStore

def jobOne : JobPosting :=
  { id := jobOneId
    title := "Senior Frontend Developer"
    location := "San Francisco, CA"
    description := "Build scalable web applications with React and Next.js. Join our team of passionate engineers."
    department := "Engineering"
    experience := "5+ years" }

def fullNameCexInput : String := " A"

def expectedShortId : String := "HLA-I-LOYW3V28"

-- ============================================================================
-- Shared helper lemmas
-- ============================================================================

/-- Mapping the per-record update function over records none of which
match the id is the identity. -/
theorem map_update_id_of_no_match (l : List Candidate) (i : String) (u : CandidateUpdate)
    (h : ∀ c ∈ l, c.id ≠ i) :
    l.map (fun c => if c.id = i then mergeCandidate c u else c) = l := by
  conv_rhs => rw [← List.map_id l]
  exact List.map_congr_left (fun c hc => by simp [h c hc])

-- ============================================================================
-- C1 — duplicate insert
-- ============================================================================

/-- Claim C1 is false on the code: `addCandidate` performs no duplicate
check, so inserting a second record with an already-present id succeeds
and the store holds both records (here the claimed behaviour, modelled
from the spec as `insertClaim`, would have failed with DUPLICATE_ID). -/
theorem addCandidate_duplicate_id_counterexample :
    cexFirst.id = cexSecond.id ∧ cexFirst ≠ cexSecond ∧
    (addCandidate cexSecond (addCandidate cexFirst initialStoreState)).candidates
      = [cexSecond, cexFirst] ∧
    insertClaim cexSecond (addCandidate cexFirst initialStoreState)
      = Except.error StoreError.DUPLICATE_ID := by
  refine ⟨rfl, by decide, rfl, rfl⟩

/-- Claim C1 (amended): `addCandidate` never fails and never removes
anything; it unconditionally prepends the record — even when the id is
already present — so after a duplicate insert the store contains both
records, the newer one first. -/
theorem addCandidate_no_duplicate_check (s : StoreState) (c : Candidate) :
    c ∈ (addCandidate c s).candidates ∧
    (∀ d ∈ s.candidates, d ∈ (addCandidate c s).candidates) ∧
    (addCandidate c s).candidates.length = s.candidates.length + 1 ∧
    (addCandidate c s).candidates.head? = some c := by
  refine ⟨List.mem_cons_self _ _, fun d hd => List.mem_cons_of_mem _ hd, by
    simp [addCandidate], rfl⟩

/-- Instantiation of `addCandidate_no_duplicate_check`: the first record
is still present after the duplicate insert. -/
theorem addCandidate_no_duplicate_check_witness :
    cexFirst ∈ (addCandidate cexSecond (addCandidate cexFirst initialStoreState)).candidates :=
  (addCandidate_no_duplicate_check (addCandidate cexFirst initialStoreState) cexSecond).2.1
    cexFirst (by decide)

-- ============================================================================
-- C4 — update of a missing id
-- ============================================================================

/-- Claim C4 is false on the code as far as the failure is concerned:
`updateCandidate` has no failure result at all. On an absent id it
returns the store unchanged, where the claimed behaviour (modelled from
the spec as `updateClaim`) is a NOT_FOUND error. -/
theorem updateCandidate_missing_id_counterexample :
    updateCandidate missingId (saveUpdate (some 3) emptyString) initialStoreState
      = initialStoreState ∧
    updateClaim missingId (saveUpdate (some 3) emptyString) initialStoreState
      = Except.error StoreError.NOT_FOUND := by
  refine ⟨by decide, rfl⟩

/-- Claim C4 (amended): when no record has the id, `updateCandidate` is a
silent no-op — the whole store, in particular the candidate collection
with its length and order, is returned unchanged; no NOT_FOUND failure
is signalled (the operation cannot fail). -/
theorem updateCandidate_missing_id_noop (s : StoreState) (i : String) (u : CandidateUpdate)
    (h : ∀ c ∈ s.candidates, c.id ≠ i) :
    updateCandidate i u s = s := by
  unfold updateCandidate
  rw [map_update_id_of_no_match s.candidates i u h]

/-- Instantiation of `updateCandidate_missing_id_noop` at the initial
store and an id it does not contain. -/
theorem updateCandidate_missing_id_noop_witness :
    updateCandidate missingId moveToReviewedUpdate initialStoreState = initialStoreState :=
  updateCandidate_missing_id_noop initialStoreState missingId moveToReviewedUpdate
    (by intro c hc; simp [initialStoreState] at hc)

-- ============================================================================
-- C10 — duplicate insert followed by lookup
-- ============================================================================

/-- Claim C10: after two inserts with the same id the store contains both
records, and `getCandidateById` on that id returns the most recently
inserted one (the first match in newest-first order), not the original. -/
theorem addCandidate_duplicate_lookup_newest (s : StoreState) (c₁ c₂ : Candidate)
    (hid : c₁.id = c₂.id) (hne : c₁ ≠ c₂) :
    c₁ ∈ (addCandidate c₂ (addCandidate c₁ s)).candidates ∧
    c₂ ∈ (addCandidate c₂ (addCandidate c₁ s)).candidates ∧
    getCandidateById c₂.id (addCandidate c₂ (addCandidate c₁ s)) = some c₂ ∧
    getCandidateById c₁.id (addCandidate c₂ (addCandidate c₁ s)) ≠ some c₁ := by
  refine ⟨by simp [addCandidate], by simp [addCandidate], ?_, ?_⟩
  · simp [getCandidateById, addCandidate, List.find?]
  · rw [hid]
    simp [getCandidateById, addCandidate, List.find?]
    exact fun h => hne h.symm

/-- Instantiation of `addCandidate_duplicate_lookup_newest` at two
concrete records sharing an id. -/
theorem addCandidate_duplicate_lookup_newest_witness :
    getCandidateById cexFirst.id (addCandidate cexSecond (addCandidate cexFirst initialStoreState))
      ≠ some cexFirst :=
  (addCandidate_duplicate_lookup_newest initialStoreState cexFirst cexSecond rfl (by decide)).2.2.2

-- ============================================================================
-- C5 — full-name validation
-- ============================================================================

/-- Claim C5 is false on the code: for the input consisting of a space
followed by a letter, the trimmed length is 1 (so the claim demands a
rejection) yet `validateFullName` accepts, because the length checks in
the source run on the raw, untrimmed string. -/
theorem validateFullName_untrimmed_length_counterexample :
    (validateFullName fullNameCexInput).valid = true ∧
    claimFullNameValid fullNameCexInput = false := by
  refine ⟨rfl, rfl⟩

/-- Claim C5 (amended): `validateFullName` accepts exactly the strings
whose trimmed form is nonempty, whose RAW length is between 2 and 100,
and whose characters all lie in the class of ASCII letters, JavaScript
whitespace (not only the space), hyphen and apostrophe. -/
theorem validateFullName_valid_iff (s : String) :
    (validateFullName s).valid = true ↔
      (jsTrim s ≠ "" ∧ 2 ≤ jsLength s ∧ jsLength s ≤ 100 ∧
        ∀ c ∈ s.toList, fullNameAllowedChar c = true) := by
  have hpat : fullNamePatternTest s = true ↔
      (s.toList ≠ [] ∧ ∀ c ∈ s.toList, fullNameAllowedChar c = true) := by
    simp [fullNamePatternTest, List.all_eq_true, List.isEmpty_iff, Bool.and_eq_true]
  constructor
  · intro hv
    unfold validateFullName invalidWith validOk at hv
    split_ifs at hv with h1 h2 h3 h4
    all_goals simp at hv
    rw [Bool.not_eq_true', Bool.not_eq_false] at h4
    exact ⟨h1, by omega, by omega, (hpat.mp h4).2⟩
  · rintro ⟨ha, hb, hc, hd⟩
    have hne : s.toList ≠ [] := by
      intro hnil
      unfold jsLength at hb
      rw [hnil] at hb
      simp at hb
    unfold validateFullName invalidWith validOk
    rw [if_neg ha, if_neg (by omega), if_neg (by omega),
      if_neg (by rw [Bool.not_eq_true', Bool.not_eq_false]; exact hpat.mpr ⟨hne, hd⟩)]

/-- Instantiation of `validateFullName_valid_iff`: a two-word name is
accepted. -/
theorem validateFullName_valid_iff_witness :
    (validateFullName exampleForm.personalInfo.fullName).valid = true :=
  (validateFullName_valid_iff exampleForm.personalInfo.fullName).mpr
    ⟨by decide, by decide, by decide, by decide⟩

-- ============================================================================
-- C6 — application id format
-- ============================================================================

/-- Claim C6 fails on a legal value of the random source, against the
intent documented in the source (`Format: HLA-XXXXXXXX-XXXXX`): when
`Math.random()` draws 0.5 — whose base-36 rendering is `0.i` — the
`substring(2, 10)` slice yields the single character `i`, so the middle
segment of the generated id has length 1, not 8. The timestamp here is
1700000000000 (base-36 `loyw3v28`). -/
theorem generateApplicationId_short_random_segment :
    generateApplicationId [18] 1700000000000 = expectedShortId ∧
    jsLength (jsSubstring (jsFracToString36 [18]) 2 10) = 1 ∧
    jsLength (jsSubstring (jsFracToString36 [18]) 2 10) ≠ 8 := by
  refine ⟨by decide, rfl, by decide⟩

-- ============================================================================
-- C7 — skill list rules and cap
-- ============================================================================

/-- Characterization of a successful `handleAddSkill`: all four guards
are false and the trimmed skill is appended. -/
theorem handleAddSkill_ok_iff (t : String) (l r : List String) :
    handleAddSkill t l = Except.ok r ↔
      (¬ jsTrim t = "" ∧ ¬ 50 < jsLength (jsTrim t) ∧ jsTrim t ∉ l ∧ ¬ 20 ≤ l.length ∧
        r = l ++ [jsTrim t]) := by
  unfold handleAddSkill
  by_cases h1 : jsTrim t = "" <;> by_cases h2 : 50 < jsLength (jsTrim t) <;>
    by_cases h3 : jsTrim t ∈ l <;> by_cases h4 : 20 ≤ l.length <;>
    simp [h1, h2, h3, h4, eq_comm]

theorem applySkillOp_length_le (l : List String) (op : SkillOp) (h : l.length ≤ 20) :
    (applySkillOp l op).length ≤ 20 := by
  cases op with
  | add t =>
    cases hh : handleAddSkill t l with
    | error e =>
      simpa [applySkillOp, hh] using h
    | ok r =>
      obtain ⟨-, -, -, h4, hr⟩ := (handleAddSkill_ok_iff t l r).mp hh
      have : applySkillOp l (SkillOp.add t) = r := by simp [applySkillOp, hh]
      rw [this, hr]
      simp only [List.length_append, List.length_singleton]
      omega
  | remove t =>
    unfold applySkillOp handleRemoveSkill
    exact le_trans (List.length_filter_le _ _) h

theorem runSkillOps_aux_le (ops : List SkillOp) (l : List String) (h : l.length ≤ 20) :
    (ops.foldl applySkillOp l).length ≤ 20 := by
  induction ops generalizing l with
  | nil => exact h
  | cons op rest ih => exact ih _ (applySkillOp_length_le l op h)

/-- Claim C7: `handleAddSkill` rejects — leaving the list untouched —
exactly when the trimmed input is empty, longer than 50 characters,
already present, or the list already holds 20 entries; adding the same
trimmed text twice is rejected the second time with the already-added
reason; a new, well-formed 21st skill is rejected with the maximum
reason; and every skill list reachable through the wizard's add/remove
operations has at most 20 entries. -/
theorem addSkill_rules_and_cap :
    (∀ t l e, handleAddSkill t l = Except.error e → applySkillOp l (SkillOp.add t) = l) ∧
    (∀ t l, (∃ e, handleAddSkill t l = Except.error e) ↔
      (jsTrim t = "" ∨ 50 < jsLength (jsTrim t) ∨ jsTrim t ∈ l ∨ 20 ≤ l.length)) ∧
    (∀ t l r, handleAddSkill t l = Except.ok r →
      handleAddSkill t r = Except.error SkillError.alreadyAdded) ∧
    (∀ t l, l.length = 20 → jsTrim t ≠ "" → jsLength (jsTrim t) ≤ 50 → jsTrim t ∉ l →
      handleAddSkill t l = Except.error SkillError.maxReached) ∧
    skillErrorMessage SkillError.alreadyAdded = "This skill is already added" ∧
    skillErrorMessage SkillError.maxReached = "Maximum 20 skills allowed" ∧
    (∀ ops, (runSkillOps ops).length ≤ 20) := by
  refine ⟨?_, ?_, ?_, ?_, rfl, rfl, fun ops => runSkillOps_aux_le ops [] (by simp)⟩
  · intro t l e h
    simp [applySkillOp, h]
  · intro t l
    unfold handleAddSkill
    by_cases h1 : jsTrim t = "" <;> by_cases h2 : 50 < jsLength (jsTrim t) <;>
      by_cases h3 : jsTrim t ∈ l <;> by_cases h4 : 20 ≤ l.length <;>
      simp [h1, h2, h3, h4]
  · intro t l r h
    obtain ⟨h1, h2, h3, h4, hr⟩ := (handleAddSkill_ok_iff t l r).mp h
    unfold handleAddSkill
    rw [if_neg h1, if_neg h2, if_pos (by rw [hr]; exact List.mem_append_right l (by simp))]
  · intro t l h20 hne hlen hnotmem
    unfold handleAddSkill
    rw [if_neg hne, if_neg (by omega), if_neg hnotmem, if_pos (by omega)]

/-- Instantiation of `addSkill_rules_and_cap`: a fresh 21st skill is
rejected with the maximum reason. -/
theorem addSkill_rules_and_cap_witness :
    handleAddSkill skillGo (List.replicate 20 skillX) = Except.error SkillError.maxReached :=
  addSkill_rules_and_cap.2.2.2.1 skillGo (List.replicate 20 skillX)
    (by decide) (by decide) (by decide) (by decide)

-- ============================================================================
-- C8 — pipeline grouping
-- ============================================================================

theorem sum_bucket_lengths (cs : List Candidate) :
    (PIPELINE_STAGE_IDS.map fun st => (getCandidatesByStage cs st).length).sum = cs.length := by
  induction cs with
  | nil => rfl
  | cons c rest ih =>
    cases hst : c.stage <;>
      simp [PIPELINE_STAGE_IDS, getCandidatesByStage, List.filter_cons, Stage.label, hst] at ih ⊢ <;>
      omega

/-- Claim C8: the board's four stage ids induce four buckets; their sizes
sum to the number of records; a record lies in a bucket exactly when the
bucket is the one of its stage (and its stage is always one of the four
board columns); and every bucket is a sublist of the source collection,
so the relative order of records is preserved. -/
theorem groupByStage_partitions (cs : List Candidate) :
    PIPELINE_STAGE_IDS.length = 4 ∧
    (PIPELINE_STAGE_IDS.map fun st => (getCandidatesByStage cs st).length).sum = cs.length ∧
    (∀ c, c ∈ cs → (c.stage.label ∈ PIPELINE_STAGE_IDS ∧
      ∀ st, (c ∈ getCandidatesByStage cs st ↔ st = c.stage.label))) ∧
    (∀ st, List.Sublist (getCandidatesByStage cs st) cs) := by
  refine ⟨rfl, sum_bucket_lengths cs, ?_, fun st => List.filter_sublist cs⟩
  intro c hc
  constructor
  · cases hst : c.stage <;> simp [PIPELINE_STAGE_IDS, Stage.label, hst]
  · intro st
    simp only [getCandidatesByStage, List.mem_filter, decide_eq_true_eq]
    constructor
    · rintro ⟨-, h⟩
      exact h.symm
    · intro h
      exact ⟨hc, h.symm⟩

/-- Instantiation of `groupByStage_partitions`: a concrete record's stage
label is one of the four board columns. -/
theorem groupByStage_partitions_witness :
    candOne.stage.label ∈ PIPELINE_STAGE_IDS :=
  ((groupByStage_partitions [candOne, candTwo]).2.2.1 candOne (by simp)).1

-- ============================================================================
-- C9 — update merge and frame
-- ============================================================================

/-- Claim C9: in a store whose record ids are unique (the data-model
invariant) and which contains a record with the given id,
`updateCandidate` rewrites exactly that record to the merge of itself
with the update — every field whose key is absent from the update keeps
its value — while the records before and after it, and hence the
collection's length and order, are untouched. -/
theorem updateCandidate_merges_and_frames (s : StoreState) (i : String) (u : CandidateUpdate)
    (hnd : idsNodup s) (c : Candidate) (hc : c ∈ s.candidates) (hid : c.id = i) :
    ∃ pre post,
      s.candidates = pre ++ c :: post ∧
      (updateCandidate i u s).candidates = pre ++ mergeCandidate c u :: post ∧
      (∀ d ∈ pre, d.id ≠ i) ∧ (∀ d ∈ post, d.id ≠ i) ∧
      (updateCandidate i u s).candidates.length = s.candidates.length ∧
      ((u.id = none → (mergeCandidate c u).id = c.id) ∧
       (u.applicationId = none → (mergeCandidate c u).applicationId = c.applicationId) ∧
       (u.jobId = none → (mergeCandidate c u).jobId = c.jobId) ∧
       (u.jobTitle = none → (mergeCandidate c u).jobTitle = c.jobTitle) ∧
       (u.applicationData = none → (mergeCandidate c u).applicationData = c.applicationData) ∧
       (u.appliedDate = none → (mergeCandidate c u).appliedDate = c.appliedDate) ∧
       (u.stage = none → (mergeCandidate c u).stage = c.stage) ∧
       (u.score = none → (mergeCandidate c u).score = c.score) ∧
       (u.notes = none → (mergeCandidate c u).notes = c.notes) ∧
       (u.interviewDate = none → (mergeCandidate c u).interviewDate = c.interviewDate) ∧
       (u.interviewTime = none → (mergeCandidate c u).interviewTime = c.interviewTime) ∧
       (u.offerDetails = none → (mergeCandidate c u).offerDetails = c.offerDetails)) := by
  obtain ⟨pre, post, hsplit⟩ := List.append_of_mem hc
  unfold idsNodup at hnd
  rw [hsplit, List.map_append, List.map_cons, List.nodup_append] at hnd
  obtain ⟨-, hnd2, hdisj⟩ := hnd
  have hpre : ∀ d ∈ pre, d.id ≠ i := by
    intro d hd heq
    exact hdisj (List.mem_map_of_mem _ hd)
      (by rw [heq, ← hid]; exact List.mem_cons_self _ _)
  have hpost : ∀ d ∈ post, d.id ≠ i := by
    intro d hd heq
    have hm : c.id ∈ post.map Candidate.id := by
      rw [hid, ← heq]
      exact List.mem_map_of_mem _ hd
    exact (List.nodup_cons.mp hnd2).1 hm
  refine ⟨pre, post, hsplit, ?_, hpre, hpost, by simp [updateCandidate], ?_⟩
  · show s.candidates.map _ = _
    rw [hsplit, List.map_append, List.map_cons,
      map_update_id_of_no_match pre i u hpre, map_update_id_of_no_match post i u hpost,
      if_pos hid]
  · exact ⟨fun h => by simp [mergeCandidate, h], fun h => by simp [mergeCandidate, h],
      fun h => by simp [mergeCandidate, h], fun h => by simp [mergeCandidate, h],
      fun h => by simp [mergeCandidate, h], fun h => by simp [mergeCandidate, h],
      fun h => by simp [mergeCandidate, h], fun h => by simp [mergeCandidate, h],
      fun h => by simp [mergeCandidate, h], fun h => by simp [mergeCandidate, h],
      fun h => by simp [mergeCandidate, h], fun h => by simp [mergeCandidate, h]⟩

/-- Instantiation of `updateCandidate_merges_and_frames`: a review update
of the first of two records keeps the collection's length. -/
theorem updateCandidate_merges_and_frames_witness :
    (updateCandidate idOne (saveUpdate (some 4) emptyString) exampleStoreTwo).candidates.length
      = exampleStoreTwo.candidates.length := by
  obtain ⟨pre, post, -, -, -, -, hlen, -⟩ :=
    updateCandidate_merges_and_frames exampleStoreTwo idOne (saveUpdate (some 4) emptyString)
      (by unfold idsNodup; decide) candOne (by decide) rfl
  exact hlen

-- ============================================================================
-- C2 — submission of a fully valid draft
-- ============================================================================

theorem validateResumeStep_valid_iff (file : Option ResumeFile) :
    (validateResumeStep file).valid = true ↔ (validateResume file).valid = true := by
  unfold validateResumeStep fieldError
  cases hv : (validateResume file).valid <;> simp [hv]

/-- Claim C2 is false on the code as far as the reset is concerned: after
a successful submission of a fully valid draft for job "1" the wizard is
NOT reset — `currentStep` is still 2 and the draft still holds the
submitted data (`resetApplicationForm` exists in the store but no code
path invokes it). -/
theorem handleSubmit_no_reset_counterexample :
    (validatePersonalInfoStep exampleForm.personalInfo.fullName exampleForm.personalInfo.email
      exampleForm.personalInfo.phone).valid = true ∧
    (validateExperienceStep exampleForm.experience.yearsOfExperience
      exampleForm.experience.skills exampleForm.experience.portfolioLink).valid = true ∧
    (validateResumeStep exampleForm.resumeFile).valid = true ∧
    exampleSubmitResult.map StoreState.currentStep = Except.ok 2 ∧
    exampleSubmitResult.map (fun st => decide (st.applicationForm = initialApplicationForm))
      = Except.ok false := by
  refine ⟨by decide, by decide, by decide, rfl, rfl⟩

/-- Claim C2 (amended): submitting a fully valid three-step draft for an
existing job succeeds and prepends a candidate record whose stage is
`Applied`, whose `applicationId` is the value of `generateApplicationId`,
and whose application data snapshots the draft; but the wizard is left
exactly where it was — `currentStep` and the draft are unchanged, not
reset to step 0 with an empty draft. -/
theorem handleSubmit_valid_submission (appRnd : List Nat) (nowMs : Nat) (idRnd : List Nat)
    (nowIso : String) (st : StoreState) (j : JobPosting)
    (hidentity : (validatePersonalInfoStep st.applicationForm.personalInfo.fullName
      st.applicationForm.personalInfo.email st.applicationForm.personalInfo.phone).valid = true)
    (hexperience : (validateExperienceStep st.applicationForm.experience.yearsOfExperience
      st.applicationForm.experience.skills st.applicationForm.experience.portfolioLink).valid = true)
    (hresume : (validateResumeStep st.applicationForm.resumeFile).valid = true)
    (hfind : st.jobPostings.find? (fun jp => st.selectedJobId = some jp.id) = some j) :
    handleSubmit appRnd nowMs idRnd nowIso st
      = Except.ok (addCandidate (mkSubmittedCandidate appRnd nowMs idRnd nowIso st j) st) ∧
    (mkSubmittedCandidate appRnd nowMs idRnd nowIso st j).stage = Stage.Applied ∧
    (mkSubmittedCandidate appRnd nowMs idRnd nowIso st j).applicationId
      = generateApplicationId appRnd nowMs ∧
    (mkSubmittedCandidate appRnd nowMs idRnd nowIso st j).applicationData
      = st.applicationForm ∧
    (addCandidate (mkSubmittedCandidate appRnd nowMs idRnd nowIso st j) st).currentStep
      = st.currentStep ∧
    (addCandidate (mkSubmittedCandidate appRnd nowMs idRnd nowIso st j) st).applicationForm
      = st.applicationForm := by
  have hres : (validateResume st.applicationForm.resumeFile).valid = true :=
    (validateResumeStep_valid_iff st.applicationForm.resumeFile).mp hresume
  refine ⟨?_, rfl, rfl, rfl, rfl, rfl⟩
  unfold handleSubmit
  simp [hres, hfind]

/-- Instantiation of `handleSubmit_valid_submission`: submitting the
valid example draft leaves the wizard on step 2. -/
theorem handleSubmit_valid_submission_witness :
    (handleSubmit [1] 1700000000000 [2] isoDate exampleWizardStore).map StoreState.currentStep
      = Except.ok exampleWizardStore.currentStep := by
  have h := handleSubmit_valid_submission [1] 1700000000000 [2] isoDate exampleWizardStore jobOne
    (by decide) (by decide) (by decide) (by decide)
  rw [h.1]
  simpa [Except.map] using h.2.2.2.2.1

-- ============================================================================
-- C3 — stage monotonicity
-- ============================================================================

theorem updateCandidate_candidates (i : String) (u : CandidateUpdate) (s : StoreState) :
    (updateCandidate i u s).candidates
      = s.candidates.map (fun c => if c.id = i then mergeCandidate c u else c) := rfl

theorem find?_map_id_preserving (g : Candidate → Candidate) (hg : ∀ c, (g c).id = c.id)
    (l : List Candidate) (i : String) :
    (l.map g).find? (fun c => c.id = i) = (l.find? (fun c => c.id = i)).map g := by
  induction l with
  | nil => rfl
  | cons c rest ih =>
    simp only [List.map_cons]
    by_cases h : c.id = i
    · rw [List.find?_cons_of_pos _ (by simp [hg, h]), List.find?_cons_of_pos _ (by simp [h])]
      rfl
    · rw [List.find?_cons_of_neg _ (by simp [hg, h]), List.find?_cons_of_neg _ (by simp [h])]
      exact ih

theorem update_preserves_ids (i : String) (u : CandidateUpdate) (s : StoreState)
    (hu : u.id = none) :
    (updateCandidate i u s).candidates.map Candidate.id = s.candidates.map Candidate.id := by
  rw [updateCandidate_candidates, List.map_map]
  apply List.map_congr_left
  intro c hc
  by_cases h : c.id = i <;> simp [Function.comp, h, mergeCandidate, hu]

theorem candidate_eq_of_id_eq (l : List Candidate) (hnd : (l.map Candidate.id).Nodup)
    (c d : Candidate) (hc : c ∈ l) (hd : d ∈ l) (h : c.id = d.id) : c = d :=
  List.inj_on_of_nodup_map hnd hc hd h

/-- A single `updateCandidate` whose update carries no `id` key and whose
stage write (if any) does not lower the stage of any matching record
moves `stageOfId` only forward. -/
theorem stage_mono_updateCandidate (s : StoreState) (j : String) (u : CandidateUpdate)
    (hu : u.id = none)
    (hguard : ∀ c ∈ s.candidates, c.id = j → c.stage.idx ≤ (u.stage.getD c.stage).idx)
    (i : String) (st : Stage) (hst : stageOfId s i = some st) :
    ∃ st', stageOfId (updateCandidate j u s) i = some st' ∧ st.idx ≤ st'.idx := by
  unfold stageOfId getCandidateById at hst ⊢
  rw [updateCandidate_candidates,
    find?_map_id_preserving _ (fun c => by by_cases h : c.id = j <;> simp [h, mergeCandidate, hu])
      s.candidates i]
  cases hfind : s.candidates.find? (fun c => c.id = i) with
  | none => rw [hfind] at hst; simp at hst
  | some c₀ =>
    rw [hfind] at hst
    simp only [Option.map_some', Option.some.injEq] at hst
    have hmem : c₀ ∈ s.candidates := List.mem_of_find?_eq_some hfind
    by_cases h : c₀.id = j
    · refine ⟨(mergeCandidate c₀ u).stage, by simp [h], ?_⟩
      have hg := hguard c₀ hmem h
      rw [← hst]
      simpa [mergeCandidate] using hg
    · exact ⟨c₀.stage, by simp [h], by rw [← hst]⟩

theorem coreStep_preserves_idsNodup (s s' : StoreState) (h : CoreStep s s')
    (hnd : idsNodup s) : idsNodup s' := by
  cases h with
  | submit c hstage hfresh =>
    unfold idsNodup addCandidate
    simp only [List.map_cons]
    rw [List.nodup_cons]
    refine ⟨?_, hnd⟩
    intro hmem
    obtain ⟨d, hd, hde⟩ := List.mem_map.mp hmem
    exact hfresh d hd hde
  | saveReview j score notes =>
    unfold idsNodup
    rw [update_preserves_ids _ _ _ rfl]
    exact hnd
  | moveToReviewed c hc hstage =>
    unfold idsNodup
    rw [update_preserves_ids _ _ _ rfl]
    exact hnd
  | scheduleInterview c date time notes hc hstage =>
    unfold idsNodup
    rw [update_preserves_ids _ _ _ rfl]
    exact hnd
  | sendOffer c details hc hstage =>
    unfold idsNodup
    rw [update_preserves_ids _ _ _ rfl]
    exact hnd
  | uiOp step form sel role => exact hnd

theorem coreStep_stage_mono (s s' : StoreState) (h : CoreStep s s') (hnd : idsNodup s)
    (i : String) (st : Stage) (hst : stageOfId s i = some st) :
    ∃ st', stageOfId s' i = some st' ∧ st.idx ≤ st'.idx := by
  cases h with
  | submit c hstage hfresh =>
    by_cases hci : c.id = i
    · exfalso
      unfold stageOfId getCandidateById at hst
      cases hfind : s.candidates.find? (fun d => d.id = i) with
      | none => rw [hfind] at hst; simp at hst
      | some d =>
        have hdi : d.id = i := by
          have := List.find?_some hfind
          simpa using this
        exact hfresh d (List.mem_of_find?_eq_some hfind) (hdi.trans hci.symm)
    · refine ⟨st, ?_, le_rfl⟩
      unfold stageOfId getCandidateById at hst ⊢
      show ((c :: s.candidates).find? (fun d => d.id = i)).map Candidate.stage = some st
      rw [List.find?_cons_of_neg _ (by simp [hci])]
      exact hst
  | saveReview j score notes =>
    exact stage_mono_updateCandidate s j (saveUpdate score notes) rfl
      (fun c hc hcj => by simp [saveUpdate]) i st hst
  | moveToReviewed c hc hstage =>
    refine stage_mono_updateCandidate s c.id moveToReviewedUpdate rfl ?_ i st hst
    intro d hd hdc
    have hdceq : d = c := candidate_eq_of_id_eq s.candidates hnd d c hd hc hdc
    subst hdceq
    simp [hstage, moveToReviewedUpdate, Stage.idx]
  | scheduleInterview c date time notes hc hstage =>
    refine stage_mono_updateCandidate s c.id (interviewUpdate date time notes) rfl ?_ i st hst
    intro d hd hdc
    have hdceq : d = c := candidate_eq_of_id_eq s.candidates hnd d c hd hc hdc
    subst hdceq
    simp [hstage, interviewUpdate, Stage.idx]
  | sendOffer c details hc hstage =>
    refine stage_mono_updateCandidate s c.id (offerUpdate details) rfl ?_ i st hst
    intro d hd hdc
    have hdceq : d = c := candidate_eq_of_id_eq s.candidates hnd d c hd hc hdc
    subst hdceq
    simp [hstage, offerUpdate, Stage.idx]
  | uiOp step form sel role => exact ⟨st, hst, le_rfl⟩

theorem coreSteps_preserve_idsNodup (s s' : StoreState)
    (h : Relation.ReflTransGen CoreStep s s') (hnd : idsNodup s) : idsNodup s' := by
  induction h with
  | refl => exact hnd
  | tail hsteps hstep ih => exact coreStep_preserves_idsNodup _ _ hstep ih

theorem coreSteps_stage_mono (s s' : StoreState) (h : Relation.ReflTransGen CoreStep s s')
    (hnd : idsNodup s) (i : String) (st : Stage) (hst : stageOfId s i = some st) :
    ∃ st', stageOfId s' i = some st' ∧ st.idx ≤ st'.idx := by
  induction h with
  | refl => exact ⟨st, hst, le_rfl⟩
  | tail hsteps hstep ih =>
    obtain ⟨st₂, hst₂, hle₂⟩ := ih
    obtain ⟨st₃, hst₃, hle₃⟩ := coreStep_stage_mono _ _ hstep
      (coreSteps_preserve_idsNodup _ _ hsteps hnd) i st₂ hst₂
    exact ⟨st₃, hst₃, le_trans hle₂ hle₃⟩

/-- Claim C3: starting from any state satisfying the record-id uniqueness
invariant of the data model, along any sequence of core operations —
submissions and the recruiter actions the components route through
`updateCandidate`, each carried with the enabling condition under which
the UI exposes it — the stage a given id resolves to never moves
backward on the path Applied → Reviewed → Interview Scheduled →
Offer Sent. -/
theorem stage_monotonic_over_core_steps (s s' : StoreState) (hnd : idsNodup s)
    (h : Relation.ReflTransGen CoreStep s s') (i : String) (st st' : Stage)
    (hst : stageOfId s i = some st) (hst' : stageOfId s' i = some st') :
    st.idx ≤ st'.idx := by
  obtain ⟨st'', hst'', hle⟩ := coreSteps_stage_mono s s' h hnd i st hst
  rw [hst'] at hst''
  cases Option.some.inj hst''
  exact hle

/-- Instantiation of `stage_monotonic_over_core_steps` on a one-step run:
moving the example Applied candidate to Reviewed. -/
theorem stage_monotonic_witness :
    Stage.idx Stage.Applied ≤ Stage.idx Stage.Reviewed :=
  stage_monotonic_over_core_steps c3Store
    (updateCandidate candOne.id moveToReviewedUpdate c3Store)
    (by unfold idsNodup; decide)
    (Relation.ReflTransGen.single
      (CoreStep.moveToReviewed c3Store candOne (by decide) (by decide)))
    candOne.id Stage.Applied Stage.Reviewed (by decide) (by decide)
